import Mathlib

/-!
Verification development for the font-atlas generator
(tools/fonts/generate_atlas.py).

The pipeline is embedded shallowly:

* Python machine integers become ℤ (or ℕ where the quantity is a count);
* the floating-point scale factor is embedded as an exact rational ℚ
  (the source computes with binary floats; the spec and all claims speak
  of the exact arithmetic policy, and C10 explicitly says
  "under exact rational arithmetic");
* Python exceptions become Except: a raised exception aborts the current
  loop/function and propagates to the caller, which is exactly the
  behaviour of Except bind (the source installs no exception handlers);
* the PIL calls (ImageDraw.textbbox, ImageDraw.text) are external
  collaborators and are abstracted as oracle parameters: textbbox is a
  function from a codepoint to a bounding box / glyph, possibly raising
  a library exception; drawing composites a per-glyph coverage mask onto
  the image buffer.
-/

/-- Exceptions that can cross the embedded functions.
ZeroDivisionError is the Python runtime error raised by an integer or
float division by zero. pilError stands for an arbitrary exception
raised inside the PIL library while handling a glyph; the source never
catches, wraps or renames it. The last two constructors are modelled
from the spec: UnsupportedGlyph and EmptyMeasurement are error kinds
named in spec section 7, and the source of generate_atlas.py defines no
such errors; they exist here only so that theorems can state that the
code never produces them. -/
inductive PyError where
  | zeroDivisionError : PyError
  | pilError : PyError
  | unsupportedGlyph : ℕ → PyError
  | emptyMeasurement : PyError
  deriving DecidableEq

/-- Pixel bounding box as returned by PIL ImageDraw.textbbox:
(x0, y0, x1, y1), coordinates relative to the anchor point passed to
textbbox. -/
structure BBox where
  x0 : ℤ
  y0 : ℤ
  x1 : ℤ
  y1 : ℤ
  deriving DecidableEq

/-- Loop body of measure_font (generate_atlas.py lines 48-62): running
maxima of width, extent above the baseline and extent below the
baseline, folded over the codepoint list.  textbbox abstracts the PIL
call dummy_draw.textbbox((0, 0), chr(cp), font=font); if it raises, the
exception aborts the loop (the source has no handler). -/
def measureLoop (textbbox : ℕ → Except PyError BBox) :
    List ℕ → ℤ → ℤ → ℤ → Except PyError (ℤ × ℤ × ℤ)
  | [], max_width, max_above, max_below => .ok (max_width, max_above, max_below)
  | cp :: rest, max_width, max_above, max_below =>
    match textbbox cp with
    | .error e => .error e
    | .ok bbox =>
      measureLoop textbbox rest
        (max max_width (bbox.x1 - bbox.x0))
        (max max_above (-bbox.y0))
        (max max_below bbox.y1)

/-- Embedding of measure_font (generate_atlas.py lines 36-64): maxima
start at 0 and are folded over all requested codepoints. -/
def measure_font (textbbox : ℕ → Except PyError BBox) (codepoints : List ℕ) :
    Except PyError (ℤ × ℤ × ℤ) :=
  measureLoop textbbox codepoints 0 0 0

/-- Python int() applied to an exact rational: truncation toward zero. -/
def pyInt (q : ℚ) : ℤ := if 0 ≤ q then ⌊q⌋ else ⌈q⌉

/-- Return record of calculate_dimensions (generate_atlas.py lines
67-89), in source order: font_size, glyph_width, glyph_height,
baseline_offset, scale. -/
structure Dimensions where
  font_size : ℤ
  glyph_width : ℤ
  glyph_height : ℤ
  baseline_offset : ℤ
  scale : ℚ
  deriving DecidableEq

/-- Embedding of calculate_dimensions (generate_atlas.py lines 67-89).
natural_height = int(max_above + max_below) and natural_baseline =
int(max_above): int() on a Python int is the identity, so the casts are
dropped.  scale = target_size / max(max_width, natural_height) raises
ZeroDivisionError exactly when the divisor is 0; otherwise every pixel
quantity is int() of the exact product, i.e. truncation toward zero. -/
def calculate_dimensions (max_width max_above max_below : ℤ)
    (target_size base_font_size : ℤ) : Except PyError Dimensions :=
  let natural_height : ℤ := max_above + max_below
  let natural_baseline : ℤ := max_above
  if max max_width natural_height = 0 then .error .zeroDivisionError
  else
    let scale : ℚ := (target_size : ℚ) / ((max max_width natural_height : ℤ) : ℚ)
    .ok { font_size := pyInt ((base_font_size : ℚ) * scale)
          glyph_width := pyInt ((max_width : ℚ) * scale)
          glyph_height := pyInt ((natural_height : ℚ) * scale)
          baseline_offset := pyInt ((natural_baseline : ℚ) * scale)
          scale := scale }

example : calculate_dimensions 2 3 1 8 16 =
    .ok { font_size := 32, glyph_width := 4, glyph_height := 8,
          baseline_offset := 6, scale := 2 } := by
  norm_num [calculate_dimensions, pyInt]

example : calculate_dimensions 0 0 0 32 16 = .error .zeroDivisionError := by rfl

/-- A single-channel (grayscale, PIL mode "L") image: width and height
in pixels, plus the pixel buffer, embedded as a total function on ℤ
coordinates (only coordinates inside the width x height rectangle
correspond to actual buffer cells; Image.new initialises every cell
to 0). -/
structure GrayImage where
  width : ℕ
  height : ℕ
  pixel : ℤ → ℤ → ℕ

/-- What the re-sized font knows about one character, as used by
create_atlas: the bounding box draw.textbbox((0, 0), chr(cp), font)
and the coverage mask that draw.text deposits, indexed relative to the
draw anchor (PIL keeps the mask inside the bounding box; that fact is
taken as a hypothesis where a theorem needs it). -/
structure Glyph where
  bbox : BBox
  mask : ℤ → ℤ → ℕ

/-- Embedding of ImageDraw.Draw.text(xy, char, font, fill=255) on a
grayscale image: the glyph coverage mask, translated to the anchor
(px, py), overwrites the pixels where it has ink; pixels the mask does
not touch keep their previous value. -/
def drawText (img : GrayImage) (px py : ℤ) (g : Glyph) : GrayImage :=
  { img with
    pixel := fun x y =>
      if 0 < g.mask (x - px) (y - py) then g.mask (x - px) (y - py)
      else img.pixel x y }

/-- Embedding of the Python dict update metadata[str(cp)] = [row, col]:
an existing binding for the key is overwritten in place, a new key is
appended at the end (insertion order).  Keys are embedded as the
codepoint itself: the source keys the dict by str(cp), and the decimal
string form of a natural number is injective, so nothing is lost. -/
def dictInsert (d : List (ℕ × ℕ × ℕ)) (k : ℕ) (v : ℕ × ℕ) :
    List (ℕ × ℕ × ℕ) :=
  if d.any (fun e => e.1 = k) then
    d.map (fun e => if e.1 = k then (k, v.1, v.2) else e)
  else d ++ [(k, v.1, v.2)]

/-- Loop body of create_atlas (generate_atlas.py lines 111-127): glyph
number i goes to row i // columns, column i % columns; it is drawn at
x = cell_x + offset_x with offset_x = -bbox[0] and y = cell_y +
baseline_offset; the metadata dict gains the binding str(cp) -> [row,
col].  textbbox abstracts draw.textbbox and the glyph mask drawn by
draw.text; a library exception aborts the loop. -/
def atlasLoop (textbbox : ℕ → Except PyError Glyph)
    (glyph_width glyph_height : ℕ) (baseline_offset : ℤ) (columns : ℕ) :
    List ℕ → ℕ → GrayImage → List (ℕ × ℕ × ℕ) →
    Except PyError (GrayImage × List (ℕ × ℕ × ℕ))
  | [], _, img, md => .ok (img, md)
  | cp :: rest, i, img, md =>
    match textbbox cp with
    | .error e => .error e
    | .ok g =>
      let row := i / columns
      let col := i % columns
      let cell_x : ℤ := (col : ℤ) * (glyph_width : ℤ)
      let cell_y : ℤ := (row : ℤ) * (glyph_height : ℤ)
      let offset_x : ℤ := -g.bbox.x0
      let offset_y : ℤ := cell_y + baseline_offset
      atlasLoop textbbox glyph_width glyph_height baseline_offset columns
        rest (i + 1)
        (drawText img (cell_x + offset_x) offset_y g)
        (dictInsert md cp (row, col))

/-- Embedding of create_atlas (generate_atlas.py lines 92-129).
rows = (glyph_count + columns - 1) // columns; Python raises
ZeroDivisionError when columns = 0.  The atlas starts as an all-zero
grayscale image of columns * glyph_width by rows * glyph_height. -/
def create_atlas (textbbox : ℕ → Except PyError Glyph) (codepoints : List ℕ)
    (glyph_width glyph_height : ℕ) (baseline_offset : ℤ) (columns : ℕ) :
    Except PyError (GrayImage × List (ℕ × ℕ × ℕ)) :=
  if columns = 0 then .error .zeroDivisionError
  else
    let glyph_count := codepoints.length
    let rows := (glyph_count + columns - 1) / columns
    let atlas : GrayImage :=
      { width := columns * glyph_width
        height := rows * glyph_height
        pixel := fun _ _ => 0 }
    atlasLoop textbbox glyph_width glyph_height baseline_offset columns
      codepoints 0 atlas []

/-- A 4-channel (PIL mode "RGBA") image; each pixel is (r, g, b, a). -/
structure RGBAImage where
  width : ℕ
  height : ℕ
  pixel : ℤ → ℤ → ℕ × ℕ × ℕ × ℕ

/-- Embedding of convert_to_rgba (generate_atlas.py lines 132-163).
The output image is created fully transparent ((0,0,0,0) everywhere);
the double loop then visits every in-bounds pixel.  The source tests
only style == "solid"; every other style string, recognised or not,
takes the else branch commented "# smooth". -/
def convert_to_rgba (grayscale_image : GrayImage) (style : String) :
    RGBAImage :=
  { width := grayscale_image.width
    height := grayscale_image.height
    pixel := fun x y =>
      if 0 ≤ x ∧ x < (grayscale_image.width : ℤ) ∧
          0 ≤ y ∧ y < (grayscale_image.height : ℤ) then
        if style = "solid" then
          if 0 < grayscale_image.pixel x y then (255, 255, 255, 255)
          else (0, 0, 0, 0)
        else
          if 0 < grayscale_image.pixel x y then
            (255, 255, 255, grayscale_image.pixel x y)
          else (0, 0, 0, 0)
      else (0, 0, 0, 0) }

/-- Which files exist after one run of generate_atlas. -/
structure RunOutcome where
  succeeded : Bool
  atlasPngWritten : Bool
  atlasJsonWritten : Bool
  deriving DecidableEq

/-- Control-flow skeleton of generate_atlas (generate_atlas.py lines
166-263) with respect to its two output files.  Each flag says whether
the corresponding effectful step succeeds; the source installs no
exception handler, so the first failing step aborts the run, leaving
exactly the files already written.  Step order, from the source:
ImageFont.truetype + measure_font (lines 200-201, loadFontOk),
calculate_dimensions (line 209, calcOk), the second truetype load plus
create_atlas and convert_to_rgba (lines 220-229, renderOk),
atlas_rgba.save(atlas_path) (line 239, saveImageOk), and the json dump
to metadata_path (lines 255-256, writeJsonOk). -/
def generate_atlas_run (loadFontOk calcOk renderOk saveImageOk writeJsonOk :
    Bool) : RunOutcome :=
  if ¬loadFontOk then ⟨false, false, false⟩
  else if ¬calcOk then ⟨false, false, false⟩
  else if ¬renderOk then ⟨false, false, false⟩
  else if ¬saveImageOk then ⟨false, false, false⟩
  else if ¬writeJsonOk then ⟨false, true, false⟩
  else ⟨true, true, true⟩

/-- Helper for stating the metadata produced by atlasLoop: the bindings
appended for a codepoint list starting at raster index i0. -/
def buildMD (columns : ℕ) : List ℕ → ℕ → List (ℕ × ℕ × ℕ)
  | [], _ => []
  | cp :: rest, i => (cp, i / columns, i % columns) :: buildMD columns rest (i + 1)

lemma pyInt_of_nonneg (q : ℚ) (h : 0 ≤ q) : pyInt q = ⌊q⌋ := if_pos h

/-- Closed form of calculate_dimensions when the divisor is nonzero. -/
lemma calculate_dimensions_eq (max_width max_above max_below : ℤ)
    (target_size base_font_size : ℤ)
    (h : max max_width (max_above + max_below) ≠ 0) :
    calculate_dimensions max_width max_above max_below target_size
        base_font_size =
      .ok { font_size := pyInt ((base_font_size : ℚ) *
              ((target_size : ℚ) /
                ((max max_width (max_above + max_below) : ℤ) : ℚ)))
            glyph_width := pyInt ((max_width : ℚ) *
              ((target_size : ℚ) /
                ((max max_width (max_above + max_below) : ℤ) : ℚ)))
            glyph_height := pyInt (((max_above + max_below : ℤ) : ℚ) *
              ((target_size : ℚ) /
                ((max max_width (max_above + max_below) : ℤ) : ℚ)))
            baseline_offset := pyInt ((max_above : ℚ) *
              ((target_size : ℚ) /
                ((max max_width (max_above + max_below) : ℤ) : ℚ)))
            scale := (target_size : ℚ) /
              ((max max_width (max_above + max_below) : ℤ) : ℚ) } := by
  unfold calculate_dimensions
  simp [h]

/-- The scale factor in the nonzero case. -/
lemma scale_pos (denom target_size : ℤ) (hd : 0 < denom) (ht : 0 < target_size) :
    0 < (target_size : ℚ) / ((denom : ℤ) : ℚ) := by
  apply div_pos
  · exact_mod_cast ht
  · exact_mod_cast hd

/-- The dimension obtained from a measured quantity bounded by the
divisor never exceeds the target size. -/
lemma pyInt_scaled_le (v denom target_size : ℤ) (hv : 0 ≤ v)
    (hvd : v ≤ denom) (hd : 0 < denom) (ht : 0 ≤ target_size) :
    pyInt ((v : ℚ) * ((target_size : ℚ) / ((denom : ℤ) : ℚ))) ≤ target_size := by
  have hs : (0 : ℚ) ≤ (target_size : ℚ) / ((denom : ℤ) : ℚ) := by
    apply div_nonneg
    · exact_mod_cast ht
    · exact_mod_cast hd.le
  have hnn : (0 : ℚ) ≤ (v : ℚ) * ((target_size : ℚ) / ((denom : ℤ) : ℚ)) :=
    mul_nonneg (by exact_mod_cast hv) hs
  rw [pyInt_of_nonneg _ hnn]
  have hle : (v : ℚ) * ((target_size : ℚ) / ((denom : ℤ) : ℚ)) ≤
      (target_size : ℚ) := by
    have hdq : ((denom : ℤ) : ℚ) ≠ 0 := by
      exact_mod_cast hd.ne.symm
    have : ((denom : ℤ) : ℚ) * ((target_size : ℚ) / ((denom : ℤ) : ℚ)) =
        (target_size : ℚ) := mul_div_cancel₀ _ hdq
    calc (v : ℚ) * ((target_size : ℚ) / ((denom : ℤ) : ℚ))
        ≤ ((denom : ℤ) : ℚ) * ((target_size : ℚ) / ((denom : ℤ) : ℚ)) :=
          mul_le_mul_of_nonneg_right (by exact_mod_cast hvd) hs
      _ = (target_size : ℚ) := this
  calc ⌊(v : ℚ) * ((target_size : ℚ) / ((denom : ℤ) : ℚ))⌋
      ≤ ⌊(target_size : ℚ)⌋ := Int.floor_le_floor hle
    _ = target_size := Int.floor_intCast target_size

/-- The dimension obtained from the divisor itself equals the target
size exactly. -/
lemma pyInt_scaled_denom (denom target_size : ℤ) (hd : 0 < denom)
    (ht : 0 ≤ target_size) :
    pyInt ((denom : ℚ) * ((target_size : ℚ) / ((denom : ℤ) : ℚ))) =
      target_size := by
  have hdq : ((denom : ℤ) : ℚ) ≠ 0 := by exact_mod_cast hd.ne.symm
  have hval : ((denom : ℤ) : ℚ) * ((target_size : ℚ) / ((denom : ℤ) : ℚ)) =
      (target_size : ℚ) := mul_div_cancel₀ _ hdq
  rw [show ((denom : ℚ)) = (((denom : ℤ) : ℚ)) from rfl, hval,
    pyInt_of_nonneg _ (by exact_mod_cast ht), Int.floor_intCast]

/-- In the nonzero case both cell dimensions are bounded by the target
size and the larger one equals it exactly. -/
lemma glyph_max_eq_target (max_width max_above max_below : ℤ)
    (target_size base_font_size : ℤ) (hw : 0 ≤ max_width) (ha : 0 ≤ max_above)
    (hb : 0 ≤ max_below) (hpos : 0 < max max_width (max_above + max_below))
    (ht : 0 ≤ target_size) :
    ∀ d, calculate_dimensions max_width max_above max_below target_size
        base_font_size = .ok d →
      d.glyph_width ≤ target_size ∧ d.glyph_height ≤ target_size ∧
        max d.glyph_width d.glyph_height = target_size := by
  intro d hd
  rw [calculate_dimensions_eq _ _ _ _ _ hpos.ne'] at hd
  simp only [Except.ok.injEq] at hd
  subst hd
  have hab : 0 ≤ max_above + max_below := add_nonneg ha hb
  have hgw : pyInt ((max_width : ℚ) *
      ((target_size : ℚ) /
        ((max max_width (max_above + max_below) : ℤ) : ℚ))) ≤ target_size :=
    pyInt_scaled_le max_width _ target_size hw (le_max_left _ _) hpos ht
  have hgh : pyInt (((max_above + max_below : ℤ) : ℚ) *
      ((target_size : ℚ) /
        ((max max_width (max_above + max_below) : ℤ) : ℚ))) ≤ target_size :=
    pyInt_scaled_le (max_above + max_below) _ target_size hab
      (le_max_right _ _) hpos ht
  refine ⟨hgw, hgh, ?_⟩
  rcases max_choice max_width (max_above + max_below) with hmax | hmax
  · have hgweq : pyInt ((max_width : ℚ) *
        ((target_size : ℚ) /
          ((max max_width (max_above + max_below) : ℤ) : ℚ))) = target_size := by
      rw [hmax]
      exact pyInt_scaled_denom max_width target_size (hmax ▸ hpos) ht
    simp only [hgweq]
    rw [max_eq_left (hgweq ▸ hgh)]
  · have hgheq : pyInt (((max_above + max_below : ℤ) : ℚ) *
        ((target_size : ℚ) /
          ((max max_width (max_above + max_below) : ℤ) : ℚ))) = target_size := by
      rw [hmax]
      exact pyInt_scaled_denom (max_above + max_below) target_size
        (hmax ▸ hpos) ht
    simp only [hgheq]
    rw [max_eq_right (hgheq ▸ hgw)]

/-- C1: for measured maxima with max(max_width, natural_height) > 0 and
a nonnegative target size, calculate_dimensions returns scale =
target_size / max(max_width, natural_height) with natural_height =
max_above + max_below, cell width = int(max_width * scale), cell height
= int(natural_height * scale) and baseline offset = int(max_above *
scale), where the integer conversion is the floor (truncating int())
policy that the spec flags in the source. -/
theorem spec_c1_grid_geometry (max_width max_above max_below : ℤ)
    (target_size base_font_size : ℤ) (hw : 0 ≤ max_width)
    (ha : 0 ≤ max_above) (hb : 0 ≤ max_below)
    (hpos : 0 < max max_width (max_above + max_below))
    (ht : 0 ≤ target_size) :
    calculate_dimensions max_width max_above max_below target_size
        base_font_size =
      .ok { font_size := pyInt ((base_font_size : ℚ) *
              ((target_size : ℚ) /
                ((max max_width (max_above + max_below) : ℤ) : ℚ)))
            glyph_width := ⌊(max_width : ℚ) *
              ((target_size : ℚ) /
                ((max max_width (max_above + max_below) : ℤ) : ℚ))⌋
            glyph_height := ⌊((max_above : ℚ) + (max_below : ℚ)) *
              ((target_size : ℚ) /
                ((max max_width (max_above + max_below) : ℤ) : ℚ))⌋
            baseline_offset := ⌊(max_above : ℚ) *
              ((target_size : ℚ) /
                ((max max_width (max_above + max_below) : ℤ) : ℚ))⌋
            scale := (target_size : ℚ) /
              ((max max_width (max_above + max_below) : ℤ) : ℚ) } := by
  have hs : (0 : ℚ) ≤ (target_size : ℚ) /
      ((max max_width (max_above + max_below) : ℤ) : ℚ) := by
    apply div_nonneg
    · exact_mod_cast ht
    · exact_mod_cast hpos.le
  rw [calculate_dimensions_eq _ _ _ _ _ hpos.ne']
  simp only [Except.ok.injEq, Dimensions.mk.injEq]
  refine ⟨trivial, ?_, ?_, ?_, trivial⟩
  · exact pyInt_of_nonneg _ (mul_nonneg (Int.cast_nonneg.mpr hw) hs)
  · rw [pyInt_of_nonneg _
      (mul_nonneg (Int.cast_nonneg.mpr (add_nonneg ha hb)) hs)]
    congr 1
    push_cast
    ring
  · exact pyInt_of_nonneg _ (mul_nonneg (Int.cast_nonneg.mpr ha) hs)

/-- Witness for C1 at max_width = 2, max_above = 3, max_below = 1,
target_size = 8, base_font_size = 16. -/
theorem spec_c1_witness :
    calculate_dimensions 2 3 1 8 16 =
      .ok { font_size := pyInt ((16 : ℚ) *
              ((8 : ℚ) / ((max 2 (3 + 1) : ℤ) : ℚ)))
            glyph_width := ⌊(2 : ℚ) * ((8 : ℚ) / ((max 2 (3 + 1) : ℤ) : ℚ))⌋
            glyph_height := ⌊((3 : ℚ) + (1 : ℚ)) *
              ((8 : ℚ) / ((max 2 (3 + 1) : ℤ) : ℚ))⌋
            baseline_offset := ⌊(3 : ℚ) *
              ((8 : ℚ) / ((max 2 (3 + 1) : ℤ) : ℚ))⌋
            scale := (8 : ℚ) / ((max 2 (3 + 1) : ℤ) : ℚ) } := by
  exact spec_c1_grid_geometry 2 3 1 8 16 (by norm_num) (by norm_num)
    (by norm_num) (by norm_num) (by norm_num)

/-- Counterexample to C6 as stated: on the all-zero maxima the code
raises a bare ZeroDivisionError, not an EmptyMeasurement error; and a
non-failing case with target_size = 0 returns scale = 0, not a positive
scale. -/
theorem spec_c6_counterexample :
    calculate_dimensions 0 0 0 32 16 = .error .zeroDivisionError ∧
    (Except.error PyError.zeroDivisionError : Except PyError Dimensions) ≠
      .error .emptyMeasurement ∧
    calculate_dimensions 1 0 0 0 16 =
      .ok { font_size := 0, glyph_width := 0, glyph_height := 0,
            baseline_offset := 0, scale := 0 } := by
  refine ⟨rfl, by simp, ?_⟩
  norm_num [calculate_dimensions, pyInt]

/-- C6 amended: if max_width and natural_height are both zero,
calculate_dimensions fails with the (unhandled, unnamed)
ZeroDivisionError of the division that computes the scale — the source
defines no EmptyMeasurement error; and whenever the measured maxima are
nonnegative, not both zero, and target_size > 0, it returns scale > 0. -/
theorem spec_c6_degenerate_measurement (max_width max_above max_below : ℤ)
    (target_size base_font_size : ℤ) :
    (max_width = 0 → max_above + max_below = 0 →
      calculate_dimensions max_width max_above max_below target_size
        base_font_size = .error .zeroDivisionError) ∧
    (0 ≤ max_width → 0 ≤ max_above + max_below →
      max max_width (max_above + max_below) ≠ 0 → 0 < target_size →
      ∃ d, calculate_dimensions max_width max_above max_below target_size
          base_font_size = .ok d ∧ 0 < d.scale) := by
  constructor
  · intro h1 h2
    unfold calculate_dimensions
    rw [h1, h2]
    simp
  · intro hw hab hne ht
    have hpos : 0 < max max_width (max_above + max_below) :=
      lt_of_le_of_ne (le_max_of_le_left hw) (Ne.symm hne)
    exact ⟨_, calculate_dimensions_eq _ _ _ _ _ hne,
      scale_pos _ _ hpos ht⟩

/-- Witness for C6 amended, discharging the first part at the all-zero
maxima and the second at maxima (3, 2, 1) with target_size = 32. -/
theorem spec_c6_witness :
    calculate_dimensions 0 0 0 32 16 = .error .zeroDivisionError ∧
    ∃ d, calculate_dimensions 3 2 1 32 16 = .ok d ∧ 0 < d.scale :=
  ⟨(spec_c6_degenerate_measurement 0 0 0 32 16).1 rfl rfl,
   (spec_c6_degenerate_measurement 3 2 1 32 16).2 (by norm_num)
     (by norm_num) (by norm_num) (by norm_num)⟩

/-- Counterexample to C8 as stated: maxima (0, 1, 0) are not both zero
and target_size = 32 > 0, yet the returned cell width is 0, not ≥ 1
(all-whitespace charsets measure zero width while still having a
nonzero vertical extent). -/
theorem spec_c8_counterexample :
    calculate_dimensions 0 1 0 32 16 =
      .ok { font_size := 512, glyph_width := 0, glyph_height := 32,
            baseline_offset := 32, scale := 32 } ∧
    ¬(1 ≤ (0 : ℤ)) := by
  constructor
  · norm_num [calculate_dimensions, pyInt]
  · decide

/-- C8 amended: for nonnegative measured maxima that are not both zero
and target_size > 0, calculate_dimensions returns scale > 0 and the
larger of cell width and cell height equals target_size (hence is
≥ 1); an individual dimension can still be 0 when the corresponding
maximum is far smaller than the other. -/
theorem spec_c8_scale_and_cells (max_width max_above max_below : ℤ)
    (target_size base_font_size : ℤ) (hw : 0 ≤ max_width)
    (ha : 0 ≤ max_above) (hb : 0 ≤ max_below)
    (hpos : 0 < max max_width (max_above + max_below))
    (ht : 0 < target_size) :
    ∃ d, calculate_dimensions max_width max_above max_below target_size
        base_font_size = .ok d ∧ 0 < d.scale ∧
      max d.glyph_width d.glyph_height = target_size := by
  refine ⟨_, calculate_dimensions_eq _ _ _ _ _ hpos.ne', ?_, ?_⟩
  · exact scale_pos _ _ hpos ht
  · exact (glyph_max_eq_target max_width max_above max_below target_size
      base_font_size hw ha hb hpos ht.le _
      (calculate_dimensions_eq _ _ _ _ _ hpos.ne')).2.2

/-- Witness for C8 amended at maxima (2, 3, 1), target_size = 8. -/
theorem spec_c8_witness :
    ∃ d, calculate_dimensions 2 3 1 8 16 = .ok d ∧ 0 < d.scale ∧
      max d.glyph_width d.glyph_height = 8 :=
  spec_c8_scale_and_cells 2 3 1 8 16 (by norm_num) (by norm_num)
    (by norm_num) (by norm_num) (by norm_num)

/-- C10: for nonnegative measured maxima with max(max_width,
natural_height) > 0 and target_size > 0, neither cell dimension exceeds
the target size, and the larger of the two equals target_size exactly
(a consequence of the truncating int() conversion under exact rational
arithmetic). -/
theorem spec_c10_cells_bounded_by_target (max_width max_above max_below : ℤ)
    (target_size base_font_size : ℤ) (hw : 0 ≤ max_width)
    (ha : 0 ≤ max_above) (hb : 0 ≤ max_below)
    (hpos : 0 < max max_width (max_above + max_below))
    (ht : 0 < target_size) :
    ∃ d, calculate_dimensions max_width max_above max_below target_size
        base_font_size = .ok d ∧ d.glyph_width ≤ target_size ∧
      d.glyph_height ≤ target_size ∧
      max d.glyph_width d.glyph_height = target_size := by
  refine ⟨_, calculate_dimensions_eq _ _ _ _ _ hpos.ne', ?_⟩
  exact glyph_max_eq_target max_width max_above max_below target_size
    base_font_size hw ha hb hpos ht.le _
    (calculate_dimensions_eq _ _ _ _ _ hpos.ne')

/-- Witness for C10 at maxima (10, 9, 3), target_size = 32. -/
theorem spec_c10_witness :
    ∃ d, calculate_dimensions 10 9 3 32 16 = .ok d ∧ d.glyph_width ≤ 32 ∧
      d.glyph_height ≤ 32 ∧ max d.glyph_width d.glyph_height = 32 :=
  spec_c10_cells_bounded_by_target 10 9 3 32 16 (by norm_num) (by norm_num)
    (by norm_num) (by norm_num) (by norm_num)

/-- Any style string other than "solid" takes the branch the source
comments "# smooth": the output is identical to the smooth style. -/
lemma convert_to_rgba_not_solid (grayscale_image : GrayImage) (style : String)
    (h : style ≠ "solid") :
    convert_to_rgba grayscale_image style =
      convert_to_rgba grayscale_image "smooth" := by
  unfold convert_to_rgba
  simp [h]

/-- C3: with style "solid", convert_to_rgba keeps the dimensions and
maps every in-bounds pixel with coverage > 0 to opaque white
(255, 255, 255, 255) and every pixel with coverage 0 to transparent
(0, 0, 0, 0); in particular the output alpha is always 0 or 255. -/
theorem spec_c3_solid_style (grayscale_image : GrayImage) (x y : ℤ)
    (hx0 : 0 ≤ x) (hx1 : x < (grayscale_image.width : ℤ))
    (hy0 : 0 ≤ y) (hy1 : y < (grayscale_image.height : ℤ)) :
    (convert_to_rgba grayscale_image "solid").width =
      grayscale_image.width ∧
    (convert_to_rgba grayscale_image "solid").height =
      grayscale_image.height ∧
    (0 < grayscale_image.pixel x y →
      (convert_to_rgba grayscale_image "solid").pixel x y =
        (255, 255, 255, 255)) ∧
    (grayscale_image.pixel x y = 0 →
      (convert_to_rgba grayscale_image "solid").pixel x y = (0, 0, 0, 0)) ∧
    (((convert_to_rgba grayscale_image "solid").pixel x y).2.2.2 = 0 ∨
      ((convert_to_rgba grayscale_image "solid").pixel x y).2.2.2 = 255) := by
  refine ⟨rfl, rfl, ?_, ?_, ?_⟩
  · intro hpix
    simp [convert_to_rgba, hx0, hx1, hy0, hy1, hpix]
  · intro hpix
    simp [convert_to_rgba, hx0, hx1, hy0, hy1, hpix]
  · rcases Nat.eq_zero_or_pos (grayscale_image.pixel x y) with hpix | hpix
    · left
      simp [convert_to_rgba, hx0, hx1, hy0, hy1, hpix]
    · right
      simp [convert_to_rgba, hx0, hx1, hy0, hy1, hpix]

/-- Witness for C3 on a 1 x 1 image whose single pixel has coverage 7,
evaluated at (0, 0). -/
theorem spec_c3_witness :
    (convert_to_rgba ⟨1, 1, fun _ _ => 7⟩ "solid").width = 1 ∧
    (convert_to_rgba ⟨1, 1, fun _ _ => 7⟩ "solid").height = 1 ∧
    (0 < (7 : ℕ) →
      (convert_to_rgba ⟨1, 1, fun _ _ => 7⟩ "solid").pixel 0 0 =
        (255, 255, 255, 255)) ∧
    ((7 : ℕ) = 0 →
      (convert_to_rgba ⟨1, 1, fun _ _ => 7⟩ "solid").pixel 0 0 =
        (0, 0, 0, 0)) ∧
    (((convert_to_rgba ⟨1, 1, fun _ _ => 7⟩ "solid").pixel 0 0).2.2.2 = 0 ∨
      ((convert_to_rgba ⟨1, 1, fun _ _ => 7⟩ "solid").pixel 0 0).2.2.2 =
        255) :=
  spec_c3_solid_style ⟨1, 1, fun _ _ => 7⟩ 0 0 (by norm_num) (by norm_num)
    (by norm_num) (by norm_num)

/-- C4: with style "smooth", convert_to_rgba keeps the dimensions, maps
every in-bounds pixel with coverage g > 0 to (255, 255, 255, g) and
every pixel with coverage 0 to (0, 0, 0, 0); hence the output alpha
equals the source coverage at every in-bounds pixel, and a pixel with
higher source coverage never gets lower output alpha. -/
theorem spec_c4_smooth_style (grayscale_image : GrayImage) (x y : ℤ)
    (hx0 : 0 ≤ x) (hx1 : x < (grayscale_image.width : ℤ))
    (hy0 : 0 ≤ y) (hy1 : y < (grayscale_image.height : ℤ)) :
    (convert_to_rgba grayscale_image "smooth").width =
      grayscale_image.width ∧
    (convert_to_rgba grayscale_image "smooth").height =
      grayscale_image.height ∧
    (0 < grayscale_image.pixel x y →
      (convert_to_rgba grayscale_image "smooth").pixel x y =
        (255, 255, 255, grayscale_image.pixel x y)) ∧
    (grayscale_image.pixel x y = 0 →
      (convert_to_rgba grayscale_image "smooth").pixel x y = (0, 0, 0, 0)) ∧
    ((convert_to_rgba grayscale_image "smooth").pixel x y).2.2.2 =
      grayscale_image.pixel x y ∧
    (∀ v w : ℤ, 0 ≤ v → v < (grayscale_image.width : ℤ) →
      0 ≤ w → w < (grayscale_image.height : ℤ) →
      grayscale_image.pixel x y ≤ grayscale_image.pixel v w →
      ((convert_to_rgba grayscale_image "smooth").pixel x y).2.2.2 ≤
        ((convert_to_rgba grayscale_image "smooth").pixel v w).2.2.2) := by
  have alpha_eq : ∀ v w : ℤ, 0 ≤ v → v < (grayscale_image.width : ℤ) →
      0 ≤ w → w < (grayscale_image.height : ℤ) →
      ((convert_to_rgba grayscale_image "smooth").pixel v w).2.2.2 =
        grayscale_image.pixel v w := by
    intro v w hv0 hv1 hw0 hw1
    rcases Nat.eq_zero_or_pos (grayscale_image.pixel v w) with hpix | hpix
    · simp [convert_to_rgba, hv0, hv1, hw0, hw1, hpix]
    · simp [convert_to_rgba, hv0, hv1, hw0, hw1, hpix]
  refine ⟨rfl, rfl, ?_, ?_, alpha_eq x y hx0 hx1 hy0 hy1, ?_⟩
  · intro hpix
    simp [convert_to_rgba, hx0, hx1, hy0, hy1, hpix]
  · intro hpix
    simp [convert_to_rgba, hx0, hx1, hy0, hy1, hpix]
  · intro v w hv0 hv1 hw0 hw1 hle
    rw [alpha_eq x y hx0 hx1 hy0 hy1, alpha_eq v w hv0 hv1 hw0 hw1]
    exact hle

/-- Witness for C4 on a 1 x 1 image whose single pixel has coverage 9,
evaluated at (0, 0). -/
theorem spec_c4_witness :
    (convert_to_rgba ⟨1, 1, fun _ _ => 9⟩ "smooth").width = 1 ∧
    (convert_to_rgba ⟨1, 1, fun _ _ => 9⟩ "smooth").height = 1 ∧
    (0 < (9 : ℕ) →
      (convert_to_rgba ⟨1, 1, fun _ _ => 9⟩ "smooth").pixel 0 0 =
        (255, 255, 255, 9)) ∧
    ((9 : ℕ) = 0 →
      (convert_to_rgba ⟨1, 1, fun _ _ => 9⟩ "smooth").pixel 0 0 =
        (0, 0, 0, 0)) ∧
    ((convert_to_rgba ⟨1, 1, fun _ _ => 9⟩ "smooth").pixel 0 0).2.2.2 = 9 ∧
    (∀ v w : ℤ, 0 ≤ v → v < ((1 : ℕ) : ℤ) → 0 ≤ w → w < ((1 : ℕ) : ℤ) →
      (9 : ℕ) ≤ 9 →
      ((convert_to_rgba ⟨1, 1, fun _ _ => 9⟩ "smooth").pixel 0 0).2.2.2 ≤
        ((convert_to_rgba ⟨1, 1, fun _ _ => 9⟩ "smooth").pixel v w).2.2.2) :=
  spec_c4_smooth_style ⟨1, 1, fun _ _ => 9⟩ 0 0 (by norm_num) (by norm_num)
    (by norm_num) (by norm_num)

/-- Counterexample to C5 as stated: the unrecognised style tag "bogus"
does not fail — convert_to_rgba silently produces the smooth-style
output image (its single coverage-5 pixel becomes (255, 255, 255, 5)).
The source tests only style == "solid" and has no UnknownStyle error. -/
theorem spec_c5_counterexample :
    (convert_to_rgba ⟨1, 1, fun _ _ => 5⟩ "bogus").pixel 0 0 =
      (255, 255, 255, 5) ∧
    convert_to_rgba ⟨1, 1, fun _ _ => 5⟩ "bogus" =
      convert_to_rgba ⟨1, 1, fun _ _ => 5⟩ "smooth" := by
  constructor
  · have hb : ("bogus" : String) ≠ "solid" := by decide
    norm_num [convert_to_rgba, hb]
  · exact convert_to_rgba_not_solid _ _ (by decide)

/-- C5 amended: convert_to_rgba never fails; every style tag other than
"solid" — "smooth" as well as any unrecognised tag — is silently treated
as the smooth style (the CLI layer, outside this function, is what
restricts the tag to solid or smooth). -/
theorem spec_c5_unknown_style (grayscale_image : GrayImage) (style : String)
    (h : style ≠ "solid") :
    convert_to_rgba grayscale_image style =
      convert_to_rgba grayscale_image "smooth" :=
  convert_to_rgba_not_solid grayscale_image style h

/-- Witness for C5 amended at the unrecognised tag "wireframe". -/
theorem spec_c5_witness :
    convert_to_rgba ⟨2, 2, fun _ _ => 3⟩ "wireframe" =
      convert_to_rgba ⟨2, 2, fun _ _ => 3⟩ "smooth" :=
  spec_c5_unknown_style ⟨2, 2, fun _ _ => 3⟩ "wireframe" (by decide)

/-- An error escaping the measurement loop is an error raised by the
underlying textbbox call on one of the codepoints, unchanged. -/
lemma measureLoop_error (textbbox : ℕ → Except PyError BBox) :
    ∀ (codepoints : List ℕ) (mw ma mb : ℤ) (e : PyError),
      measureLoop textbbox codepoints mw ma mb = .error e →
      ∃ cp ∈ codepoints, textbbox cp = .error e := by
  intro codepoints
  induction codepoints with
  | nil =>
    intro mw ma mb e h
    simp [measureLoop] at h
  | cons cp rest ih =>
    intro mw ma mb e h
    rw [measureLoop] at h
    cases htb : textbbox cp with
    | error e2 =>
      rw [htb] at h
      simp only [Except.error.injEq] at h
      exact ⟨cp, List.mem_cons_self cp rest, by rw [htb, h]⟩
    | ok bbox =>
      rw [htb] at h
      obtain ⟨cp2, hmem, herr⟩ := ih _ _ _ _ h
      exact ⟨cp2, List.mem_cons_of_mem cp hmem, herr⟩

/-- An error escaping the atlas loop is an error raised by the
underlying textbbox call on one of the codepoints, unchanged. -/
lemma atlasLoop_error (textbbox : ℕ → Except PyError Glyph)
    (glyph_width glyph_height : ℕ) (baseline_offset : ℤ) (columns : ℕ) :
    ∀ (codepoints : List ℕ) (i : ℕ) (img : GrayImage)
      (md : List (ℕ × ℕ × ℕ)) (e : PyError),
      atlasLoop textbbox glyph_width glyph_height baseline_offset columns
        codepoints i img md = .error e →
      ∃ cp ∈ codepoints, textbbox cp = .error e := by
  intro codepoints
  induction codepoints with
  | nil =>
    intro i img md e h
    simp [atlasLoop] at h
  | cons cp rest ih =>
    intro i img md e h
    rw [atlasLoop] at h
    cases htb : textbbox cp with
    | error e2 =>
      rw [htb] at h
      simp only [Except.error.injEq] at h
      exact ⟨cp, List.mem_cons_self cp rest, by rw [htb, h]⟩
    | ok g =>
      rw [htb] at h
      simp only at h
      obtain ⟨cp2, hmem, herr⟩ := ih _ _ _ _ h
      exact ⟨cp2, List.mem_cons_of_mem cp hmem, herr⟩

/-- Counterexample to C7 as stated: with a rasterizer oracle that
raises a PIL exception on codepoint 65, measure_font fails with that
library exception unchanged — not with an UnsupportedGlyph error
identifying the codepoint (no such error exists in the source). -/
theorem spec_c7_counterexample :
    measure_font (fun _ => .error .pilError) [65] = .error .pilError ∧
    measure_font (fun _ => .error .pilError) [65] ≠
      .error (.unsupportedGlyph 65) := by
  constructor
  · rfl
  · intro h
    rw [show measure_font (fun _ => .error .pilError) [65] =
        .error .pilError from rfl] at h
    simp at h

/-- C7 amended: when the underlying rasterizer raises on some
codepoint, measure_font and create_atlas propagate the library's
exception unchanged (the source neither wraps it in an UnsupportedGlyph
error nor attaches the offending codepoint); the failing codepoint is
one of the requested ones. -/
theorem spec_c7_error_propagation
    (textbboxMeasure : ℕ → Except PyError BBox)
    (textbboxAtlas : ℕ → Except PyError Glyph)
    (codepoints : List ℕ) (glyph_width glyph_height : ℕ)
    (baseline_offset : ℤ) (columns : ℕ) (e : PyError) :
    (measure_font textbboxMeasure codepoints = .error e →
      ∃ cp ∈ codepoints, textbboxMeasure cp = .error e) ∧
    (0 < columns →
      create_atlas textbboxAtlas codepoints glyph_width glyph_height
        baseline_offset columns = .error e →
      ∃ cp ∈ codepoints, textbboxAtlas cp = .error e) := by
  constructor
  · intro h
    exact measureLoop_error textbboxMeasure codepoints 0 0 0 e h
  · intro hc h
    rw [create_atlas, if_neg hc.ne'] at h
    exact atlasLoop_error textbboxAtlas glyph_width glyph_height
      baseline_offset columns codepoints 0 _ [] e h

/-- Witness for C7 amended: oracles failing on codepoint 65 with a PIL
exception, a one-element codepoint list and one column. -/
theorem spec_c7_witness :
    (∃ cp ∈ [65], (fun (_ : ℕ) =>
      (Except.error .pilError : Except PyError BBox)) cp =
        .error .pilError) ∧
    (∃ cp ∈ [65], (fun (_ : ℕ) =>
      (Except.error .pilError : Except PyError Glyph)) cp =
        .error .pilError) :=
  ⟨(spec_c7_error_propagation (fun _ => .error .pilError)
      (fun _ => .error .pilError) [65] 4 4 0 1 .pilError).1 rfl,
   (spec_c7_error_propagation (fun _ => .error .pilError)
      (fun _ => .error .pilError) [65] 4 4 0 1 .pilError).2
      (by norm_num) rfl⟩

/-- Counterexample to C9 as stated: when every step up to and including
the image save succeeds but the metadata write fails, the run fails
with exactly one of the two outputs (atlas.png) on disk. -/
theorem spec_c9_counterexample :
    generate_atlas_run true true true true false =
      ⟨false, true, false⟩ ∧
    (generate_atlas_run true true true true false).atlasPngWritten ≠
      (generate_atlas_run true true true true false).atlasJsonWritten := by
  constructor
  · rfl
  · decide

/-- C9 amended: a failure at or before the image save produces no
output at all; the atlas image exists afterwards iff every step through
the image save succeeded, and the metadata file exists iff additionally
the metadata write succeeded — so the only incomplete state a run can
leave is the image without the metadata, exactly when the json dump is
the step that fails; on success both are written. -/
theorem spec_c9_outputs (loadFontOk calcOk renderOk saveImageOk
    writeJsonOk : Bool) :
    (generate_atlas_run loadFontOk calcOk renderOk saveImageOk
      writeJsonOk).atlasPngWritten =
        (loadFontOk && calcOk && renderOk && saveImageOk) ∧
    (generate_atlas_run loadFontOk calcOk renderOk saveImageOk
      writeJsonOk).atlasJsonWritten =
        (loadFontOk && calcOk && renderOk && saveImageOk && writeJsonOk) ∧
    (generate_atlas_run loadFontOk calcOk renderOk saveImageOk
      writeJsonOk).succeeded =
        (loadFontOk && calcOk && renderOk && saveImageOk && writeJsonOk) := by
  revert loadFontOk calcOk renderOk saveImageOk writeJsonOk
  decide

/-- Inserting a key no existing entry uses appends the binding. -/
lemma dictInsert_fresh (d : List (ℕ × ℕ × ℕ)) (k : ℕ) (v : ℕ × ℕ)
    (h : ∀ e ∈ d, e.1 ≠ k) : dictInsert d k v = d ++ [(k, v.1, v.2)] := by
  unfold dictInsert
  rw [if_neg]
  simp only [List.any_eq_true, decide_eq_true_eq, not_exists]
  intro e
  intro hcontra
  exact absurd hcontra.2 (h e hcontra.1)

lemma buildMD_length (columns : ℕ) :
    ∀ (codepoints : List ℕ) (i : ℕ),
      (buildMD columns codepoints i).length = codepoints.length := by
  intro codepoints
  induction codepoints with
  | nil => intro i; rfl
  | cons cp rest ih =>
    intro i
    simp [buildMD, ih]

lemma buildMD_getElem (columns : ℕ) :
    ∀ (codepoints : List ℕ) (i k cp : ℕ),
      codepoints[k]? = some cp →
      (buildMD columns codepoints i)[k]? =
        some (cp, (i + k) / columns, (i + k) % columns) := by
  intro codepoints
  induction codepoints with
  | nil =>
    intro i k cp h
    simp at h
  | cons hd rest ih =>
    intro i k cp h
    cases k with
    | zero =>
      simp only [List.getElem?_cons_zero, Option.some.injEq] at h
      subst h
      simp [buildMD]
    | succ k2 =>
      simp only [List.getElem?_cons_succ] at h
      have := ih (i + 1) k2 cp h
      rw [show i + (k2 + 1) = i + 1 + k2 by omega]
      simpa [buildMD] using this

/-- When every codepoint renders and the codepoints are distinct, the
atlas loop succeeds and appends exactly the raster-order bindings to
the metadata dict. -/
lemma atlasLoop_ok_md (textbbox : ℕ → Except PyError Glyph)
    (glyph_width glyph_height : ℕ) (baseline_offset : ℤ) (columns : ℕ) :
    ∀ (codepoints : List ℕ) (i : ℕ) (img : GrayImage)
      (md : List (ℕ × ℕ × ℕ)),
      (∀ cp ∈ codepoints, ∃ g, textbbox cp = .ok g) →
      codepoints.Nodup →
      (∀ cp ∈ codepoints, ∀ e ∈ md, e.1 ≠ cp) →
      ∃ imgF, atlasLoop textbbox glyph_width glyph_height baseline_offset
          columns codepoints i img md =
        .ok (imgF, md ++ buildMD columns codepoints i) := by
  intro codepoints
  induction codepoints with
  | nil =>
    intro i img md hok hnd hfresh
    exact ⟨img, by simp [atlasLoop, buildMD]⟩
  | cons cp rest ih =>
    intro i img md hok hnd hfresh
    obtain ⟨g, hg⟩ := hok cp (List.mem_cons_self cp rest)
    obtain ⟨hcp_rest, hnd_rest⟩ := List.nodup_cons.mp hnd
    have hfresh1 : ∀ e ∈ md, e.1 ≠ cp :=
      fun e he => hfresh cp (List.mem_cons_self cp rest) e he
    have hfresh2 : ∀ c ∈ rest,
        ∀ e ∈ md ++ [(cp, i / columns, i % columns)], e.1 ≠ c := by
      intro c hc e he
      rcases List.mem_append.mp he with hin | hin
      · exact hfresh c (List.mem_cons_of_mem cp hc) e hin
      · have he : e = (cp, i / columns, i % columns) := by simpa using hin
        subst he
        intro hcontra
        apply hcp_rest
        have hcc : cp = c := hcontra
        rwa [hcc]
    obtain ⟨imgF, hF⟩ := ih (i + 1)
      (drawText img
        (((i % columns : ℕ) : ℤ) * (glyph_width : ℤ) + -g.bbox.x0)
        (((i / columns : ℕ) : ℤ) * (glyph_height : ℤ) + baseline_offset) g)
      (md ++ [(cp, i / columns, i % columns)])
      (fun c hc => hok c (List.mem_cons_of_mem cp hc)) hnd_rest hfresh2
    refine ⟨imgF, ?_⟩
    simp only [atlasLoop, hg]
    rw [dictInsert_fresh md cp _ hfresh1]
    rw [hF]
    simp [buildMD, List.append_assoc]

/-- The atlas loop succeeds when every codepoint renders, preserves the
image dimensions, and every pixel it changes lies in the translated
coverage mask of one of the drawn glyphs, at that glyph's anchor. -/
lemma atlasLoop_ok_img (textbbox : ℕ → Except PyError Glyph)
    (glyph_width glyph_height : ℕ) (baseline_offset : ℤ) (columns : ℕ) :
    ∀ (codepoints : List ℕ) (i : ℕ) (img : GrayImage)
      (md : List (ℕ × ℕ × ℕ)),
      (∀ cp ∈ codepoints, ∃ g, textbbox cp = .ok g) →
      ∃ imgF mdF,
        atlasLoop textbbox glyph_width glyph_height baseline_offset columns
          codepoints i img md = .ok (imgF, mdF) ∧
        imgF.width = img.width ∧ imgF.height = img.height ∧
        ∀ x y : ℤ, imgF.pixel x y ≠ img.pixel x y →
          ∃ k cp g, k < codepoints.length ∧ codepoints[k]? = some cp ∧
            textbbox cp = .ok g ∧
            0 < g.mask
              (x - ((((i + k) % columns : ℕ) : ℤ) * (glyph_width : ℤ) +
                -g.bbox.x0))
              (y - ((((i + k) / columns : ℕ) : ℤ) * (glyph_height : ℤ) +
                baseline_offset)) := by
  intro codepoints
  induction codepoints with
  | nil =>
    intro i img md hok
    exact ⟨img, md, by simp [atlasLoop], rfl, rfl,
      fun x y h => absurd rfl h⟩
  | cons cp rest ih =>
    intro i img md hok
    obtain ⟨g, hg⟩ := hok cp (List.mem_cons_self cp rest)
    obtain ⟨imgF, mdF, hres, hwidth, hheight, hprop⟩ := ih (i + 1)
      (drawText img
        (((i % columns : ℕ) : ℤ) * (glyph_width : ℤ) + -g.bbox.x0)
        (((i / columns : ℕ) : ℤ) * (glyph_height : ℤ) + baseline_offset) g)
      (dictInsert md cp (i / columns, i % columns))
      (fun c hc => hok c (List.mem_cons_of_mem cp hc))
    refine ⟨imgF, mdF, ?_, hwidth, hheight, ?_⟩
    · simp only [atlasLoop, hg]
      exact hres
    · intro x y hne
      by_cases h2 : imgF.pixel x y =
          (drawText img
            (((i % columns : ℕ) : ℤ) * (glyph_width : ℤ) + -g.bbox.x0)
            (((i / columns : ℕ) : ℤ) * (glyph_height : ℤ) + baseline_offset)
            g).pixel x y
      · have hchanged : (drawText img
            (((i % columns : ℕ) : ℤ) * (glyph_width : ℤ) + -g.bbox.x0)
            (((i / columns : ℕ) : ℤ) * (glyph_height : ℤ) + baseline_offset)
            g).pixel x y ≠ img.pixel x y := h2 ▸ hne
        by_cases hm : 0 < g.mask
            (x - ((((i) % columns : ℕ) : ℤ) * (glyph_width : ℤ) +
              -g.bbox.x0))
            (y - ((((i) / columns : ℕ) : ℤ) * (glyph_height : ℤ) +
              baseline_offset))
        · refine ⟨0, cp, g, by simp, by simp, hg, ?_⟩
          simpa using hm
        · exfalso
          apply hchanged
          simp only [drawText]
          rw [if_neg hm]
      · obtain ⟨k, cp2, g2, hk, hget, hg2, hmask⟩ := hprop x y h2
        refine ⟨k + 1, cp2, g2, by simpa using Nat.succ_lt_succ hk,
          by simpa using hget, hg2, ?_⟩
        rw [show i + (k + 1) = i + 1 + k by omega]
        exact hmask

/-- C2: when all codepoints render, the codepoints are pairwise
distinct (the spec speaks of a set of codepoints) and columns > 0,
create_atlas assigns position i to cell (i div columns, i mod columns),
distinct positions get distinct cells, the image measures
columns * glyph_width by ceil(count / columns) * glyph_height (the row
count rows = (count + columns - 1) / columns is characterised as the
least multiple bound: count ≤ rows * columns < count + columns), and —
whenever each rendered glyph's coverage fits the cell box around its
draw anchor — every pixel of a cell with raster index ≥ count is 0. -/
theorem spec_c2_grid_packing (textbbox : ℕ → Except PyError Glyph)
    (codepoints : List ℕ) (glyph_width glyph_height : ℕ)
    (baseline_offset : ℤ) (columns : ℕ) (hc : 0 < columns)
    (hnd : codepoints.Nodup)
    (hok : ∀ cp ∈ codepoints, ∃ g, textbbox cp = .ok g) :
    ∃ img md,
      create_atlas textbbox codepoints glyph_width glyph_height
        baseline_offset columns = .ok (img, md) ∧
      (∀ i cp, codepoints[i]? = some cp →
        md[i]? = some (cp, i / columns, i % columns)) ∧
      (∀ (i j : ℕ) (ei ej : ℕ × ℕ × ℕ), md[i]? = some ei →
        md[j]? = some ej → i ≠ j → ei.2 ≠ ej.2) ∧
      img.width = columns * glyph_width ∧
      img.height =
        ((codepoints.length + columns - 1) / columns) * glyph_height ∧
      codepoints.length ≤
        ((codepoints.length + columns - 1) / columns) * columns ∧
      ((codepoints.length + columns - 1) / columns) * columns <
        codepoints.length + columns ∧
      ((∀ cp g, textbbox cp = .ok g → ∀ u v : ℤ, 0 < g.mask u v →
          g.bbox.x0 ≤ u ∧ u < g.bbox.x0 + glyph_width ∧
          -baseline_offset ≤ v ∧ v < -baseline_offset + glyph_height) →
        ∀ xn yn : ℕ, xn < columns * glyph_width →
          yn < ((codepoints.length + columns - 1) / columns) *
            glyph_height →
          codepoints.length ≤
            (yn / glyph_height) * columns + xn / glyph_width →
          img.pixel (xn : ℤ) (yn : ℤ) = 0) := by
  obtain ⟨imgF, hmd⟩ := atlasLoop_ok_md textbbox glyph_width glyph_height
    baseline_offset columns codepoints 0
    { width := columns * glyph_width
      height := ((codepoints.length + columns - 1) / columns) * glyph_height
      pixel := fun _ _ => 0 } [] hok hnd (by simp)
  obtain ⟨imgF2, mdF2, hres2, hwidth, hheight, hprop⟩ :=
    atlasLoop_ok_img textbbox glyph_width glyph_height baseline_offset
      columns codepoints 0
      { width := columns * glyph_width
        height :=
          ((codepoints.length + columns - 1) / columns) * glyph_height
        pixel := fun _ _ => 0 } [] hok
  rw [hmd] at hres2
  simp only [List.nil_append, Except.ok.injEq, Prod.mk.injEq] at hres2
  obtain ⟨himg_eq, hmd_eq⟩ := hres2
  subst himg_eq
  subst hmd_eq
  refine ⟨imgF, buildMD columns codepoints 0, ?_, ?_, ?_, hwidth, hheight,
    ?_, ?_, ?_⟩
  · rw [create_atlas, if_neg hc.ne']
    exact hmd
  · intro i cp hi
    simpa using buildMD_getElem columns codepoints 0 i cp hi
  · intro i j ei ej hei hej hij
    have hilt : i < (buildMD columns codepoints 0).length :=
      (List.getElem?_eq_some.mp hei).1
    have hjlt : j < (buildMD columns codepoints 0).length :=
      (List.getElem?_eq_some.mp hej).1
    rw [buildMD_length] at hilt hjlt
    have hei2 := buildMD_getElem columns codepoints 0 i _
      (List.getElem?_eq_getElem hilt)
    have hej2 := buildMD_getElem columns codepoints 0 j _
      (List.getElem?_eq_getElem hjlt)
    simp only [Nat.zero_add] at hei2 hej2
    rw [hei] at hei2
    rw [hej] at hej2
    have hei3 := Option.some.inj hei2
    have hej3 := Option.some.inj hej2
    intro hcells
    apply hij
    rw [hei3, hej3] at hcells
    simp only [Prod.mk.injEq] at hcells
    have hi2 := Nat.div_add_mod' i columns
    have hj2 := Nat.div_add_mod' j columns
    rw [← hi2, ← hj2, hcells.1, hcells.2]
  · have hdm := Nat.div_add_mod (codepoints.length + columns - 1) columns
    have hml := Nat.mod_lt (codepoints.length + columns - 1) hc
    rw [mul_comm]
    omega
  · have hdm := Nat.div_add_mod (codepoints.length + columns - 1) columns
    have hml := Nat.mod_lt (codepoints.length + columns - 1) hc
    rw [mul_comm]
    omega
  · intro hcontain xn yn hxn hyn hidx
    by_contra hpx
    have hchanged : imgF.pixel (xn : ℤ) (yn : ℤ) ≠ 0 := hpx
    obtain ⟨k, cp, g, hk, hget, hg, hmask⟩ :=
      hprop (xn : ℤ) (yn : ℤ) hchanged
    simp only [Nat.zero_add] at hmask
    obtain ⟨hu1, hu2, hv1, hv2⟩ := hcontain cp g hg _ _ hmask
    have hcx1 : ((k % columns : ℕ) : ℤ) * (glyph_width : ℤ) ≤ (xn : ℤ) := by
      linarith
    have hcx2 : (xn : ℤ) <
        ((k % columns : ℕ) : ℤ) * (glyph_width : ℤ) + (glyph_width : ℤ) := by
      linarith
    have hcy1 : ((k / columns : ℕ) : ℤ) * (glyph_height : ℤ) ≤ (yn : ℤ) := by
      linarith
    have hcy2 : (yn : ℤ) <
        ((k / columns : ℕ) : ℤ) * (glyph_height : ℤ) + (glyph_height : ℤ) := by
      linarith
    have hx1 : (k % columns) * glyph_width ≤ xn := by exact_mod_cast hcx1
    have hx2 : xn < (k % columns + 1) * glyph_width := by
      have h2 : xn < (k % columns) * glyph_width + glyph_width := by
        exact_mod_cast hcx2
      calc xn < (k % columns) * glyph_width + glyph_width := h2
        _ = (k % columns + 1) * glyph_width := by ring
    have hy1 : (k / columns) * glyph_height ≤ yn := by exact_mod_cast hcy1
    have hy2 : yn < (k / columns + 1) * glyph_height := by
      have h2 : yn < (k / columns) * glyph_height + glyph_height := by
        exact_mod_cast hcy2
      calc yn < (k / columns) * glyph_height + glyph_height := h2
        _ = (k / columns + 1) * glyph_height := by ring
    have hxdiv : xn / glyph_width = k % columns :=
      Nat.div_eq_of_lt_le hx1 hx2
    have hydiv : yn / glyph_height = k / columns :=
      Nat.div_eq_of_lt_le hy1 hy2
    rw [hxdiv, hydiv, Nat.div_add_mod' k columns] at hidx
    exact absurd hidx (not_le.mpr hk)

/-- Witness for C2: three codepoints, two columns, 1 x 1 cells, and an
oracle whose glyphs have empty masks; position 2 lands in cell (1, 0)
and the atlas measures 2 x 2. -/
theorem spec_c2_witness :
    ∃ img md,
      create_atlas (fun _ => .ok ⟨⟨0, 0, 0, 0⟩, fun _ _ => 0⟩)
        [65, 66, 67] 1 1 0 2 = .ok (img, md) ∧
      md[2]? = some (67, 1, 0) ∧ img.width = 2 ∧ img.height = 2 := by
  obtain ⟨img, md, hres, ha, hbij, hw, hh, hle, hlt, hd⟩ :=
    spec_c2_grid_packing (fun _ => .ok ⟨⟨0, 0, 0, 0⟩, fun _ _ => 0⟩)
      [65, 66, 67] 1 1 0 2 (by norm_num) (by decide)
      (fun cp _ => ⟨_, rfl⟩)
  refine ⟨img, md, hres, ?_, ?_, ?_⟩
  · simpa using ha 2 67 (by decide)
  · simpa using hw
  · simpa using hh
